import Mathlib

/-!
Verification of the OCR web application's image-preprocessing pipeline and
its surrounding orchestration, as implemented in
`src/src/components/ErrorBoundary.tsx` (the `ImagePreprocessor` class and
`performOCR`), `src/src/hooks/useBatchQueue.ts`, and the `useTextEditor`
hook (`src/unnamed/part_000`).

Modelling conventions:
* `ImageData` (a flat RGBA `Uint8ClampedArray` of length `width*height*4`)
  is modelled as a `PixelBuffer`: a width, a height and a `List RGBA`
  of pixels in row-major order (one list entry per 4 array slots).
* JavaScript IEEE-754 doubles are modelled by `ℚ`; all quantities the
  algorithms compute (sums of 8-bit samples, their quotients) are exactly
  representable, so rational arithmetic is faithful for the properties
  proved here.
* `Uint8ClampedArray` stores a double by clamping to `[0,255]` and
  rounding to the nearest integer, ties to even; this is `clampRound8`.
-/

/-- One RGBA pixel: four 8-bit channel samples of `ImageData.data`. -/
structure RGBA where
  r : ℕ
  g : ℕ
  b : ℕ
  a : ℕ
deriving DecidableEq

/-- In-memory pixel buffer: `width`, `height` and the row-major pixel list
(the `ImageData` handed from stage to stage). -/
structure PixelBuffer where
  width : ℕ
  height : ℕ
  data : List RGBA
deriving DecidableEq

/-- Round half to even (the rounding mode `Uint8ClampedArray` uses when a
double is stored into it). -/
def roundHalfEven (x : ℚ) : ℤ :=
  let f := Int.floor x
  let frac := x - f
  if frac < 1/2 then f
  else if 1/2 < frac then f + 1
  else if Even f then f else f + 1

/-- Store a double into a `Uint8ClampedArray` slot: clamp to `[0, 255]`
and round to nearest, ties to even. -/
def clampRound8 (x : ℚ) : ℕ :=
  if x ≤ 0 then 0
  else if 255 ≤ x then 255
  else (roundHalfEven x).toNat

theorem roundHalfEven_intCast (q : ℤ) : roundHalfEven (q : ℚ) = q := by
  unfold roundHalfEven
  simp

theorem clampRound8_le (x : ℚ) : clampRound8 x ≤ 255 := by
  unfold clampRound8
  split
  · omega
  · split
    · omega
    · rename_i h0 h255
      have hfl : (Int.floor x) < 255 := by
        rw [Int.floor_lt]
        push_cast
        linarith
      have h1 : roundHalfEven x ≤ Int.floor x + 1 := by
        unfold roundHalfEven
        dsimp only
        split
        · omega
        · split
          · omega
          · split <;> omega
      omega

theorem clampRound8_natCast (q : ℕ) (hq : q ≤ 255) : clampRound8 (q : ℚ) = q := by
  unfold clampRound8
  split
  · rename_i h
    have : q = 0 := by exact_mod_cast le_antisymm h (by positivity)
    omega
  · split
    · rename_i _ h
      have : (255 : ℕ) ≤ q := by exact_mod_cast h
      omega
    · rw [show ((q : ℚ)) = ((q : ℤ) : ℚ) by push_cast; ring, roundHalfEven_intCast]
      simp

namespace ImagePreprocessor

/-- `ImagePreprocessor.toGrayscale` applied to one pixel: replace R, G, B by
the BT.601 luminance `0.299*R + 0.587*G + 0.114*B` (stored through the
clamped array), alpha untouched. -/
def grayPixel (p : RGBA) : RGBA :=
  let avg := clampRound8 ((p.r : ℚ) * (299/1000) + (p.g : ℚ) * (587/1000) + (p.b : ℚ) * (114/1000))
  ⟨avg, avg, avg, p.a⟩

/-- `ImagePreprocessor.toGrayscale`: the `for (i += 4)` loop over the data
array, replacing each pixel's R, G, B with its luminance. -/
def toGrayscale (buf : PixelBuffer) : PixelBuffer :=
  { buf with data := buf.data.map grayPixel }

theorem grayPixel_idem (p : RGBA) : grayPixel (grayPixel p) = grayPixel p := by
  unfold grayPixel
  simp only [RGBA.mk.injEq]
  have hq : ∀ q : ℕ, q ≤ 255 →
      (q : ℚ) * (299/1000) + (q : ℚ) * (587/1000) + (q : ℚ) * (114/1000) = (q : ℚ) := by
    intro q _
    ring
  set q := clampRound8 ((p.r : ℚ) * (299/1000) + (p.g : ℚ) * (587/1000) + (p.b : ℚ) * (114/1000)) with hqdef
  have hle : q ≤ 255 := clampRound8_le _
  rw [hq q hle, clampRound8_natCast q hle]
  simp

end ImagePreprocessor

/-- Claim C4: `toGrayscale` is idempotent — applying it twice gives the same
buffer as applying it once; each pixel's R, G, B become the BT.601 luminance
and alpha is untouched by definition of `grayPixel`. -/
theorem C4_grayscale_idempotent (buf : PixelBuffer) :
    ImagePreprocessor.toGrayscale (ImagePreprocessor.toGrayscale buf) =
      ImagePreprocessor.toGrayscale buf := by
  unfold ImagePreprocessor.toGrayscale
  simp only [List.map_map]
  refine congrArg _ ?_
  refine List.map_congr_left ?_
  intro p _
  exact ImagePreprocessor.grayPixel_idem p

namespace ImagePreprocessor

/-- The 256-bin luminance histogram that `calculateOtsuThreshold` builds:
`histogram[data[i]]++` over every pixel's R channel. -/
def luminanceHistogram (buf : PixelBuffer) (t : ℕ) : ℕ :=
  (buf.data.map RGBA.r).count t

/-- Loop state of the Otsu scan: background weight `wB`, background running
sum `sumB`, best variance so far and the best threshold so far. -/
structure OtsuState where
  wB : ℕ
  sumB : ℚ
  maxVariance : ℚ
  threshold : ℕ
deriving DecidableEq

/-- One iteration of the `for (t = 0; t < 256; t++)` scan of
`calculateOtsuThreshold`.  `Sum.inl thr` encodes that the loop has executed
`break` (once `wF == 0`) with result `thr`; `continue` on `wB == 0` keeps
the rest of the state unchanged. -/
def otsuStep (hist : ℕ → ℕ) (totalPixels : ℕ) (sum : ℚ)
    (s : ℕ ⊕ OtsuState) (t : ℕ) : ℕ ⊕ OtsuState :=
  match s with
  | Sum.inl thr => Sum.inl thr
  | Sum.inr st =>
    let wB := st.wB + hist t
    if wB = 0 then Sum.inr { st with wB := wB }
    else
      let wF := totalPixels - wB
      if wF = 0 then Sum.inl st.threshold
      else
        let sumB := st.sumB + (t : ℚ) * (hist t : ℚ)
        let mB := sumB / (wB : ℚ)
        let mF := (sum - sumB) / (wF : ℚ)
        let variance := (wB : ℚ) * (wF : ℚ) * (mB - mF) * (mB - mF)
        if st.maxVariance < variance then Sum.inr ⟨wB, sumB, variance, t⟩
        else Sum.inr ⟨wB, sumB, st.maxVariance, st.threshold⟩

/-- `ImagePreprocessor.calculateOtsuThreshold`: histogram build, the total
`i * histogram[i]` sum, then the 0..255 scan maximizing between-class
variance (first maximizer wins; initial threshold 0). -/
def calculateOtsuThreshold (buf : PixelBuffer) : ℕ :=
  let hist := luminanceHistogram buf
  let totalPixels := buf.data.length
  let sum : ℚ := ∑ i ∈ Finset.range 256, (i : ℚ) * (hist i : ℚ)
  match (List.range 256).foldl (otsuStep hist totalPixels sum) (Sum.inr ⟨0, 0, 0, 0⟩) with
  | Sum.inl thr => thr
  | Sum.inr st => st.threshold

/-- Division that records a division by zero instead of performing it:
`none` exactly when the denominator is `0`. -/
def checkedDiv (a b : ℚ) : Option ℚ :=
  if b = 0 then none else some (a / b)

/-- `otsuStep` with both divisions (`sumB / wB` and `(sum - sumB) / wF`)
routed through `checkedDiv`: the whole scan aborts with `none` if either
division were ever attempted with a zero denominator. -/
def otsuStepChecked (hist : ℕ → ℕ) (totalPixels : ℕ) (sum : ℚ)
    (s : Option (ℕ ⊕ OtsuState)) (t : ℕ) : Option (ℕ ⊕ OtsuState) :=
  match s with
  | none => none
  | some (Sum.inl thr) => some (Sum.inl thr)
  | some (Sum.inr st) =>
    let wB := st.wB + hist t
    if wB = 0 then some (Sum.inr { st with wB := wB })
    else
      let wF := totalPixels - wB
      if wF = 0 then some (Sum.inl st.threshold)
      else
        let sumB := st.sumB + (t : ℚ) * (hist t : ℚ)
        match checkedDiv sumB (wB : ℚ), checkedDiv (sum - sumB) (wF : ℚ) with
        | some mB, some mF =>
          let variance := (wB : ℚ) * (wF : ℚ) * (mB - mF) * (mB - mF)
          if st.maxVariance < variance then some (Sum.inr ⟨wB, sumB, variance, t⟩)
          else some (Sum.inr ⟨wB, sumB, st.maxVariance, st.threshold⟩)
        | _, _ => none

/-- `calculateOtsuThreshold` with division-by-zero detection. -/
def calculateOtsuThresholdChecked (buf : PixelBuffer) : Option ℕ :=
  let hist := luminanceHistogram buf
  let totalPixels := buf.data.length
  let sum : ℚ := ∑ i ∈ Finset.range 256, (i : ℚ) * (hist i : ℚ)
  match (List.range 256).foldl (otsuStepChecked hist totalPixels sum)
      (some (Sum.inr ⟨0, 0, 0, 0⟩)) with
  | some (Sum.inl thr) => some thr
  | some (Sum.inr st) => some st.threshold
  | none => none

theorem otsuStepChecked_some (hist : ℕ → ℕ) (totalPixels : ℕ) (sum : ℚ)
    (s : ℕ ⊕ OtsuState) (t : ℕ) :
    otsuStepChecked hist totalPixels sum (some s) t =
      some (otsuStep hist totalPixels sum s t) := by
  cases s with
  | inl thr => rfl
  | inr st =>
    unfold otsuStepChecked otsuStep
    dsimp only
    by_cases hwB : st.wB + hist t = 0
    · simp [hwB]
    · by_cases hwF : totalPixels - (st.wB + hist t) = 0
      · simp [hwB, hwF]
      · have hB : (st.wB : ℚ) + (hist t : ℚ) ≠ 0 := by
          intro h
          apply hwB
          exact_mod_cast h
        have hF : ((totalPixels - (st.wB + hist t) : ℕ) : ℚ) ≠ 0 := Nat.cast_ne_zero.mpr hwF
        simp [hwB, hwF, checkedDiv, hB, hF]
        split <;> rfl

theorem foldl_otsuStepChecked (hist : ℕ → ℕ) (totalPixels : ℕ) (sum : ℚ)
    (l : List ℕ) (s : ℕ ⊕ OtsuState) :
    l.foldl (otsuStepChecked hist totalPixels sum) (some s) =
      some (l.foldl (otsuStep hist totalPixels sum) s) := by
  induction l generalizing s with
  | nil => rfl
  | cons t l ih =>
    simp only [List.foldl_cons, otsuStepChecked_some]
    exact ih _

theorem otsuStep_hist_zero (hist : ℕ → ℕ) (totalPixels : ℕ) (sum : ℚ)
    (st : OtsuState) (t : ℕ) (ht : hist t = 0) (hwB : st.wB = 0) :
    otsuStep hist totalPixels sum (Sum.inr st) t = Sum.inr st := by
  unfold otsuStep
  dsimp only
  rw [ht, if_pos (show st.wB + 0 = 0 by omega)]
  rfl

theorem foldl_otsuStep_zero_run (hist : ℕ → ℕ) (totalPixels : ℕ) (sum : ℚ)
    (l : List ℕ) (hl : ∀ t ∈ l, hist t = 0) (st : OtsuState) (hwB : st.wB = 0) :
    l.foldl (otsuStep hist totalPixels sum) (Sum.inr st) = Sum.inr st := by
  induction l with
  | nil => rfl
  | cons t l ih =>
    simp only [List.foldl_cons]
    rw [otsuStep_hist_zero hist totalPixels sum st t (hl t (by simp)) hwB]
    exact ih fun u hu => hl u (by simp [hu])

theorem foldl_otsuStep_inl (hist : ℕ → ℕ) (totalPixels : ℕ) (sum : ℚ)
    (l : List ℕ) (thr : ℕ) :
    l.foldl (otsuStep hist totalPixels sum) (Sum.inl thr) = Sum.inl thr := by
  induction l with
  | nil => rfl
  | cons t l ih => simpa using ih

theorem foldl_otsuStep_flat (hist : ℕ → ℕ) (sum : ℚ) (v n : ℕ)
    (hn : n ≠ 0) (hv : hist v = n) (hz : ∀ t, t ≠ v → hist t = 0) :
    ∀ (len start : ℕ) (st : OtsuState), st.wB = 0 → start ≤ v → v < start + len →
      (List.range' start len).foldl (otsuStep hist n sum) (Sum.inr st) =
        Sum.inl st.threshold := by
  intro len
  induction len with
  | zero => intro start st _ h1 h2; omega
  | succ len ih =>
    intro start st hwB h1 h2
    rw [List.range'_succ, List.foldl_cons]
    by_cases hs : start = v
    · subst hs
      have hstep : otsuStep hist n sum (Sum.inr st) start = Sum.inl st.threshold := by
        unfold otsuStep
        dsimp only
        rw [hwB, hv]
        simp [hn]
      rw [hstep, foldl_otsuStep_inl]
    · have hlt : start < v := lt_of_le_of_ne h1 hs
      rw [otsuStep_hist_zero hist n sum st start (hz start hs) hwB]
      exact ih (start + 1) st hwB (by omega) (by omega)

end ImagePreprocessor

/-- Claim C2: `calculateOtsuThreshold` never divides by zero — the checked
variant, which aborts with `none` whenever a division with zero denominator
would be attempted, always succeeds and agrees with the plain function (the
`wB == 0` continue and `wF == 0` break guard every division) — and on a
fully degenerate buffer in which every pixel has the single luminance `v`
the function returns threshold `0`. -/
theorem C2_otsu_no_div_by_zero :
    (∀ buf : PixelBuffer,
      ImagePreprocessor.calculateOtsuThresholdChecked buf =
        some (ImagePreprocessor.calculateOtsuThreshold buf)) ∧
    (∀ (buf : PixelBuffer) (v : ℕ), v < 256 → (∀ p ∈ buf.data, p.r = v) →
      ImagePreprocessor.calculateOtsuThreshold buf = 0) := by
  constructor
  · intro buf
    unfold ImagePreprocessor.calculateOtsuThresholdChecked
      ImagePreprocessor.calculateOtsuThreshold
    dsimp only
    rw [ImagePreprocessor.foldl_otsuStepChecked]
    split <;> simp_all
  · intro buf v hv hflat
    unfold ImagePreprocessor.calculateOtsuThreshold
    dsimp only
    by_cases hbuf : buf.data = []
    · have hz : ∀ t, ImagePreprocessor.luminanceHistogram buf t = 0 := by
        intro t
        unfold ImagePreprocessor.luminanceHistogram
        rw [hbuf]
        simp
      have hrun := ImagePreprocessor.foldl_otsuStep_zero_run
        (ImagePreprocessor.luminanceHistogram buf) buf.data.length
        (∑ i ∈ Finset.range 256,
          (i : ℚ) * (ImagePreprocessor.luminanceHistogram buf i : ℚ))
        (List.range 256) (fun t _ => hz t) ⟨0, 0, 0, 0⟩ rfl
      rw [hrun]
    · have hlen : buf.data.length ≠ 0 := by
        intro h
        exact hbuf (List.length_eq_zero.mp h)
      have hall : ∀ x ∈ buf.data.map RGBA.r, x = v := by
        intro x hx
        rcases List.mem_map.mp hx with ⟨q, hq, hxq⟩
        rw [← hxq]
        exact hflat q hq
      have hv' : ImagePreprocessor.luminanceHistogram buf v = buf.data.length := by
        unfold ImagePreprocessor.luminanceHistogram
        rw [List.count_eq_length.mpr (fun x hx => (hall x hx).symm)]
        simp
      have hz : ∀ t, t ≠ v → ImagePreprocessor.luminanceHistogram buf t = 0 := by
        intro t ht
        unfold ImagePreprocessor.luminanceHistogram
        rw [List.count_eq_zero]
        intro hmem
        exact ht (hall t hmem)
      have hrun := ImagePreprocessor.foldl_otsuStep_flat
        (ImagePreprocessor.luminanceHistogram buf)
        (∑ i ∈ Finset.range 256,
          (i : ℚ) * (ImagePreprocessor.luminanceHistogram buf i : ℚ))
        v buf.data.length hlen hv' hz 256 0 ⟨0, 0, 0, 0⟩ rfl (by omega) (by omega)
      rw [List.range_eq_range', hrun]

/-- Witness for C2 at a concrete degenerate buffer: a 2×1 image whose two
pixels both have luminance 7. -/
theorem C2_otsu_no_div_by_zero_witness :
    ImagePreprocessor.calculateOtsuThresholdChecked
        ⟨2, 1, [⟨7, 7, 7, 255⟩, ⟨7, 7, 7, 255⟩]⟩ =
      some (ImagePreprocessor.calculateOtsuThreshold
        ⟨2, 1, [⟨7, 7, 7, 255⟩, ⟨7, 7, 7, 255⟩]⟩) ∧
    ImagePreprocessor.calculateOtsuThreshold
        ⟨2, 1, [⟨7, 7, 7, 255⟩, ⟨7, 7, 7, 255⟩]⟩ = 0 :=
  ⟨C2_otsu_no_div_by_zero.1 _,
   C2_otsu_no_div_by_zero.2 ⟨2, 1, [⟨7, 7, 7, 255⟩, ⟨7, 7, 7, 255⟩]⟩ 7 (by omega)
     (by intro p hp; simp at hp; simp [hp])⟩

namespace ImagePreprocessor

/-- `ImagePreprocessor.threshold`: binarize every pixel's R, G, B to 0 or 255
against `thresholdValue` when supplied (`thresholdValue ?? ...`), else
against the Otsu threshold; `gray` is the pixel's R channel. -/
def threshold (buf : PixelBuffer) (thresholdValue : Option ℕ := none) : PixelBuffer :=
  let t := thresholdValue.getD (calculateOtsuThreshold buf)
  { buf with data := buf.data.map fun p =>
      let value := if t < p.r then 255 else 0
      ⟨value, value, value, p.a⟩ }

end ImagePreprocessor

/-- Claim C6: the output of `threshold` is binary — with or without an
explicit threshold value, every pixel of the result has R channel 0 or 255. -/
theorem C6_threshold_binary (buf : PixelBuffer) (thresholdValue : Option ℕ) :
    ∀ p ∈ (ImagePreprocessor.threshold buf thresholdValue).data, p.r = 0 ∨ p.r = 255 := by
  intro p hp
  unfold ImagePreprocessor.threshold at hp
  dsimp only at hp
  rcases List.mem_map.mp hp with ⟨q, _, hq⟩
  rw [← hq]
  dsimp only
  split
  · right; rfl
  · left; rfl

/-- Witness for C6 on a concrete 2×1 buffer with a fixed threshold value:
the second output pixel is binary. -/
theorem C6_threshold_binary_witness :
    ((ImagePreprocessor.threshold ⟨2, 1, [⟨10, 20, 30, 255⟩, ⟨200, 20, 30, 0⟩]⟩
        (some 128)).data.getD 1 ⟨1, 1, 1, 1⟩).r = 0 ∨
    ((ImagePreprocessor.threshold ⟨2, 1, [⟨10, 20, 30, 255⟩, ⟨200, 20, 30, 0⟩]⟩
        (some 128)).data.getD 1 ⟨1, 1, 1, 1⟩).r = 255 :=
  C6_threshold_binary ⟨2, 1, [⟨10, 20, 30, 255⟩, ⟨200, 20, 30, 0⟩]⟩ (some 128)
    _ (by decide)

namespace ImagePreprocessor

/-- R-channel (luminance) sample at row `y`, column `x`: `data[(y*width+x)*4]`.
Out-of-range reads yield 0 (they are never exercised by the loops below). -/
def pixR (buf : PixelBuffer) (y x : ℕ) : ℤ :=
  ((buf.data.getD (y * buf.width + x) ⟨0, 0, 0, 0⟩).r : ℤ)

/-- The running row sum of `computeIntegralImage`:
`rowSum` after having processed columns `0..x` of row `y`. -/
def rowSumI (buf : PixelBuffer) (y : ℕ) : ℕ → ℤ
  | 0 => pixR buf y 0
  | x + 1 => rowSumI buf y x + pixR buf y (x + 1)

/-- `ImagePreprocessor.computeIntegralImage` entry `integral[y][x]` (the
`(width+1)×(height+1)` summed-area table): border row/column are 0 and
`integral[y+1][x+1] = rowSum(y, 0..x) + integral[y][x+1]`. -/
def integralImage (buf : PixelBuffer) : ℕ → ℕ → ℤ
  | 0, _ => 0
  | _ + 1, 0 => 0
  | y + 1, x + 1 => rowSumI buf y x + integralImage buf y (x + 1)

/-- `ImagePreprocessor.getIntegralSum`: rectangle sum over
`[x1,x2]×[y1,y2]` by inclusion–exclusion on the summed-area table. -/
def getIntegralSum (buf : PixelBuffer) (x1 y1 x2 y2 : ℕ) : ℤ :=
  integralImage buf (y2 + 1) (x2 + 1) -
    integralImage buf y1 (x2 + 1) -
    integralImage buf (y2 + 1) x1 +
    integralImage buf y1 x1

theorem rowSumI_eq (buf : PixelBuffer) (y : ℕ) :
    ∀ x, rowSumI buf y x = ∑ i ∈ Finset.range (x + 1), pixR buf y i := by
  intro x
  induction x with
  | zero => simp [rowSumI]
  | succ x ih =>
    rw [rowSumI, ih]
    exact (Finset.sum_range_succ _ (x + 1)).symm

theorem integralImage_eq (buf : PixelBuffer) :
    ∀ y x, integralImage buf y x =
      ∑ j ∈ Finset.range y, ∑ i ∈ Finset.range x, pixR buf j i := by
  intro y
  induction y with
  | zero => intro x; simp [integralImage]
  | succ y ih =>
    intro x
    cases x with
    | zero => simp [integralImage]
    | succ x =>
      rw [integralImage, ih (x + 1), rowSumI_eq,
        Finset.sum_range_succ (fun j => ∑ i ∈ Finset.range (x + 1), pixR buf j i) y]
      ring

theorem getIntegralSum_eq (buf : PixelBuffer) (x1 y1 x2 y2 : ℕ)
    (hx : x1 ≤ x2 + 1) (hy : y1 ≤ y2 + 1) :
    getIntegralSum buf x1 y1 x2 y2 =
      ∑ j ∈ Finset.Ico y1 (y2 + 1), ∑ i ∈ Finset.Ico x1 (x2 + 1), pixR buf j i := by
  unfold getIntegralSum
  simp only [integralImage_eq, Finset.range_eq_Ico]
  have hxsplit : ∀ j, ∑ i ∈ Finset.Ico 0 (x2 + 1), pixR buf j i =
      (∑ i ∈ Finset.Ico 0 x1, pixR buf j i) +
        ∑ i ∈ Finset.Ico x1 (x2 + 1), pixR buf j i := by
    intro j
    rw [Finset.sum_Ico_consecutive _ (Nat.zero_le x1) hx]
  have hysplit : ∀ f : ℕ → ℤ, ∑ j ∈ Finset.Ico 0 (y2 + 1), f j =
      (∑ j ∈ Finset.Ico 0 y1, f j) + ∑ j ∈ Finset.Ico y1 (y2 + 1), f j := by
    intro f
    rw [Finset.sum_Ico_consecutive _ (Nat.zero_le y1) hy]
  rw [hysplit (fun j => ∑ i ∈ Finset.Ico 0 (x2 + 1), pixR buf j i),
    hysplit (fun j => ∑ i ∈ Finset.Ico 0 x1, pixR buf j i)]
  have h1 : ∑ j ∈ Finset.Ico 0 y1, ∑ i ∈ Finset.Ico 0 (x2 + 1), pixR buf j i =
      (∑ j ∈ Finset.Ico 0 y1, ∑ i ∈ Finset.Ico 0 x1, pixR buf j i) +
        ∑ j ∈ Finset.Ico 0 y1, ∑ i ∈ Finset.Ico x1 (x2 + 1), pixR buf j i := by
    rw [← Finset.sum_add_distrib]
    exact Finset.sum_congr rfl fun j _ => hxsplit j
  have h2 : ∑ j ∈ Finset.Ico y1 (y2 + 1), ∑ i ∈ Finset.Ico 0 (x2 + 1), pixR buf j i =
      (∑ j ∈ Finset.Ico y1 (y2 + 1), ∑ i ∈ Finset.Ico 0 x1, pixR buf j i) +
        ∑ j ∈ Finset.Ico y1 (y2 + 1), ∑ i ∈ Finset.Ico x1 (x2 + 1), pixR buf j i := by
    rw [← Finset.sum_add_distrib]
    exact Finset.sum_congr rfl fun j _ => hxsplit j
  rw [h1, h2]
  ring

/-- Per-pixel body of `ImagePreprocessor.adaptiveThreshold` at data index
`i` holding pixel `p`: clamp the `blockSize×blockSize` window (the natural
subtraction `x - half` is `Math.max(0, x - half)`), take the window sum from
the integral image, compare the pixel to `sum / count - c`.  Indices at or
beyond `width*height` (and the `width = 0` case) are outside the
`for (y) for (x)` loops and are returned untouched. -/
def adaptivePixel (buf : PixelBuffer) (half : ℕ) (c : ℚ) (i : ℕ) (p : RGBA) : RGBA :=
  if buf.width ≠ 0 ∧ i / buf.width < buf.height then
    let y := i / buf.width
    let x := i % buf.width
    let x1 := x - half
    let y1 := y - half
    let x2 := min (buf.width - 1) (x + half)
    let y2 := min (buf.height - 1) (y + half)
    let count : ℕ := (x2 - x1 + 1) * (y2 - y1 + 1)
    let sum := getIntegralSum buf x1 y1 x2 y2
    let mean : ℚ := (sum : ℚ) / (count : ℚ) - c
    let value : ℕ := if mean < (p.r : ℚ) then 255 else 0
    ⟨value, value, value, p.a⟩
  else p

/-- `ImagePreprocessor.adaptiveThreshold(imageData, blockSize, c)`:
integral-image accelerated local-mean binarization. -/
def adaptiveThreshold (buf : PixelBuffer) (blockSize : ℕ := 15) (c : ℚ := 5) : PixelBuffer :=
  let half := blockSize / 2
  { buf with data := buf.data.mapIdx fun i p => adaptivePixel buf half c i p }

/-- Modelled from the spec: the naive O(blockSize²) per-pixel neighborhood
mean — a direct double sum over the clamped window. -/
def naiveWindowSum (buf : PixelBuffer) (x1 y1 x2 y2 : ℕ) : ℤ :=
  ∑ j ∈ Finset.Ico y1 (y2 + 1), ∑ i ∈ Finset.Ico x1 (x2 + 1), pixR buf j i

/-- Modelled from the spec: per-pixel naive adaptive threshold — mean of the
clamped `blockSize×blockSize` neighborhood computed by direct summation,
binarized as `out = (pixel > mean - c) ? 255 : 0`. -/
def naiveAdaptivePixel (buf : PixelBuffer) (half : ℕ) (c : ℚ) (i : ℕ) (p : RGBA) : RGBA :=
  if buf.width ≠ 0 ∧ i / buf.width < buf.height then
    let y := i / buf.width
    let x := i % buf.width
    let x1 := x - half
    let y1 := y - half
    let x2 := min (buf.width - 1) (x + half)
    let y2 := min (buf.height - 1) (y + half)
    let count : ℕ := (x2 - x1 + 1) * (y2 - y1 + 1)
    let sum := naiveWindowSum buf x1 y1 x2 y2
    let mean : ℚ := (sum : ℚ) / (count : ℚ)
    let value : ℕ := if mean - c < (p.r : ℚ) then 255 else 0
    ⟨value, value, value, p.a⟩
  else p

/-- Modelled from the spec: the naive adaptive threshold over the buffer. -/
def naiveAdaptiveThreshold (buf : PixelBuffer) (blockSize : ℕ := 15) (c : ℚ := 5) : PixelBuffer :=
  let half := blockSize / 2
  { buf with data := buf.data.mapIdx fun i p => naiveAdaptivePixel buf half c i p }

theorem adaptivePixel_eq_naive (buf : PixelBuffer) (half : ℕ) (c : ℚ) (i : ℕ) (p : RGBA) :
    adaptivePixel buf half c i p = naiveAdaptivePixel buf half c i p := by
  unfold adaptivePixel naiveAdaptivePixel
  split
  · rename_i hin
    obtain ⟨hw, hy⟩ := hin
    dsimp only
    have hxlt : i % buf.width < buf.width := Nat.mod_lt _ (Nat.pos_of_ne_zero hw)
    have hx : i % buf.width - half ≤ min (buf.width - 1) (i % buf.width + half) + 1 := by
      rcases le_total (buf.width - 1) (i % buf.width + half) with h | h
      · rw [min_eq_left h]
        exact le_trans (Nat.sub_le _ _)
          (le_trans (Nat.le_sub_one_of_lt hxlt) (Nat.le_succ _))
      · rw [min_eq_right h]
        exact le_trans (Nat.sub_le _ _)
          (le_trans (Nat.le_add_right _ _) (Nat.le_succ _))
    have hy' : i / buf.width - half ≤ min (buf.height - 1) (i / buf.width + half) + 1 := by
      rcases le_total (buf.height - 1) (i / buf.width + half) with h | h
      · rw [min_eq_left h]
        exact le_trans (Nat.sub_le _ _)
          (le_trans (Nat.le_sub_one_of_lt hy) (Nat.le_succ _))
      · rw [min_eq_right h]
        exact le_trans (Nat.sub_le _ _)
          (le_trans (Nat.le_add_right _ _) (Nat.le_succ _))
    rw [getIntegralSum_eq buf _ _ _ _ hx hy']
    rfl
  · rfl

end ImagePreprocessor

/-- Claim C3: `adaptiveThreshold` computed via the integral image produces a
buffer identical, pixel for pixel, to the naive O(blockSize²) per-pixel
neighborhood-mean binarization (`out = (pixel > mean - c) ? 255 : 0` over
the window clamped to the image borders), for every buffer, blockSize and c. -/
theorem C3_adaptive_integral_refines_naive (buf : PixelBuffer) (blockSize : ℕ) (c : ℚ) :
    ImagePreprocessor.adaptiveThreshold buf blockSize c =
      ImagePreprocessor.naiveAdaptiveThreshold buf blockSize c := by
  unfold ImagePreprocessor.adaptiveThreshold ImagePreprocessor.naiveAdaptiveThreshold
  dsimp only
  rw [show (fun i p => ImagePreprocessor.adaptivePixel buf (blockSize / 2) c i p) =
      (fun i p => ImagePreprocessor.naiveAdaptivePixel buf (blockSize / 2) c i p) from
    funext fun i => funext fun p => ImagePreprocessor.adaptivePixel_eq_naive buf _ c i p]

namespace ImagePreprocessor

/-- `ImagePreprocessor.deskew`: detect the skew angle and, when
`Math.abs(angle) < 0.5`, return the input `imageData` unchanged ("no
significant skew detected").  The angle search (`detectSkewAngle`, which
scores projection profiles using platform `Math.sin`/`Math.cos`) and the
rotation branch (which renders through a DOM canvas) are platform
primitives, taken here as parameters `detectSkewAngle` and `rotateCanvas`;
the guard itself is the code under verification. -/
def deskew (detectSkewAngle : PixelBuffer → ℚ)
    (rotateCanvas : PixelBuffer → ℚ → PixelBuffer) (buf : PixelBuffer) : PixelBuffer :=
  let angle := detectSkewAngle buf
  if |angle| < 1/2 then buf
  else rotateCanvas buf angle

end ImagePreprocessor

/-- Claim C5: whenever the detected skew angle satisfies `|angle| < 0.5°`,
`deskew` returns its input unchanged — same width, same height, and
pixel-identical data — for any skew detector and any rotation primitive. -/
theorem C5_deskew_small_angle_noop (detectSkewAngle : PixelBuffer → ℚ)
    (rotateCanvas : PixelBuffer → ℚ → PixelBuffer) (buf : PixelBuffer)
    (hangle : |detectSkewAngle buf| < 1/2) :
    ImagePreprocessor.deskew detectSkewAngle rotateCanvas buf = buf ∧
    (ImagePreprocessor.deskew detectSkewAngle rotateCanvas buf).width = buf.width ∧
    (ImagePreprocessor.deskew detectSkewAngle rotateCanvas buf).height = buf.height ∧
    (ImagePreprocessor.deskew detectSkewAngle rotateCanvas buf).data = buf.data := by
  have h : ImagePreprocessor.deskew detectSkewAngle rotateCanvas buf = buf := by
    unfold ImagePreprocessor.deskew
    dsimp only
    rw [if_pos hangle]
  exact ⟨h, by rw [h], by rw [h], by rw [h]⟩

/-- Witness for C5: a detector reporting a 0.25° angle on a concrete 1×1
buffer (|0.25| < 0.5), with a rotation primitive that blanks the buffer. -/
theorem C5_deskew_small_angle_noop_witness :
    ImagePreprocessor.deskew (fun _ => 1/4) (fun _ _ => ⟨0, 0, []⟩)
        ⟨1, 1, [⟨9, 9, 9, 9⟩]⟩ =
      ⟨1, 1, [⟨9, 9, 9, 9⟩]⟩ :=
  (C5_deskew_small_angle_noop (fun _ => 1/4) (fun _ _ => ⟨0, 0, []⟩)
    ⟨1, 1, [⟨9, 9, 9, 9⟩]⟩ (by rw [abs_of_pos (by norm_num)]; norm_num)).1

/-- `mode` tag of `PreprocessingOptions`. -/
inductive OCRMode
  | printed
  | handwritten
deriving DecidableEq

/-- `PreprocessingOptions` from `src/src/components/ErrorBoundary.tsx`: every
field is optional in the TypeScript interface; `none` models an absent
property. -/
structure PreprocessingOptions where
  grayscale : Option Bool := none
  denoise : Option Bool := none
  contrast : Option Bool := none
  threshold : Option Bool := none
  adaptiveThreshold : Option Bool := none
  sharpen : Option Bool := none
  deskew : Option Bool := none
  morphology : Option Bool := none
  mode : Option OCRMode := none
  contrastFactor : Option ℚ := none
  adaptiveBlockSize : Option ℕ := none
  adaptiveC : Option ℚ := none
  upscale : Option Bool := none
  bilateralFilter : Option Bool := none
  unsharpMask : Option Bool := none
deriving DecidableEq

namespace ImagePreprocessor

/-- `ImagePreprocessor.getDefaultPrintedOptions` (it sets neither
`adaptiveBlockSize` nor `adaptiveC`). -/
def getDefaultPrintedOptions : PreprocessingOptions where
  grayscale := some true
  denoise := some true
  contrast := some true
  threshold := some false
  adaptiveThreshold := some false
  sharpen := some true
  deskew := some false
  morphology := some false
  mode := some OCRMode.printed
  contrastFactor := some (13/10)
  upscale := some false
  bilateralFilter := some false
  unsharpMask := some false

/-- `ImagePreprocessor.getDefaultHandwrittenOptions`. -/
def getDefaultHandwrittenOptions : PreprocessingOptions where
  grayscale := some true
  denoise := some true
  contrast := some true
  threshold := some false
  adaptiveThreshold := some true
  sharpen := some false
  deskew := some true
  morphology := some true
  mode := some OCRMode.handwritten
  contrastFactor := some (9/5)
  adaptiveBlockSize := some 31
  adaptiveC := some 12
  upscale := some true
  bilateralFilter := some true
  unsharpMask := some true

/-- The preset `preprocess` selects:
`options.mode === 'handwritten' ? getDefaultHandwrittenOptions() : getDefaultPrintedOptions()`. -/
def selectedDefaults (options : PreprocessingOptions) : PreprocessingOptions :=
  if options.mode = some OCRMode.handwritten then getDefaultHandwrittenOptions
  else getDefaultPrintedOptions

/-- `const opts = { ...defaults, ...options }` of `preprocess`: field-wise,
a property present on `options` overrides the default. -/
def effectiveOptions (options : PreprocessingOptions) : PreprocessingOptions :=
  let defaults := selectedDefaults options
  { grayscale := options.grayscale <|> defaults.grayscale
    denoise := options.denoise <|> defaults.denoise
    contrast := options.contrast <|> defaults.contrast
    threshold := options.threshold <|> defaults.threshold
    adaptiveThreshold := options.adaptiveThreshold <|> defaults.adaptiveThreshold
    sharpen := options.sharpen <|> defaults.sharpen
    deskew := options.deskew <|> defaults.deskew
    morphology := options.morphology <|> defaults.morphology
    mode := options.mode <|> defaults.mode
    contrastFactor := options.contrastFactor <|> defaults.contrastFactor
    adaptiveBlockSize := options.adaptiveBlockSize <|> defaults.adaptiveBlockSize
    adaptiveC := options.adaptiveC <|> defaults.adaptiveC
    upscale := options.upscale <|> defaults.upscale
    bilateralFilter := options.bilateralFilter <|> defaults.bilateralFilter
    unsharpMask := options.unsharpMask <|> defaults.unsharpMask }

end ImagePreprocessor

/-- Claim C7: the effective options of a pipeline run are the canonical
preset of the selected mode merged with the caller's overrides — for every
field, a caller-supplied value takes precedence, and an absent field falls
back to the preset (`selectedDefaults`) of the mode the caller selected. -/
theorem C7_options_merge (o : PreprocessingOptions) :
    ((∀ v, o.grayscale = some v →
        (ImagePreprocessor.effectiveOptions o).grayscale = some v) ∧
      (o.grayscale = none → (ImagePreprocessor.effectiveOptions o).grayscale =
        (ImagePreprocessor.selectedDefaults o).grayscale)) ∧
    ((∀ v, o.denoise = some v →
        (ImagePreprocessor.effectiveOptions o).denoise = some v) ∧
      (o.denoise = none → (ImagePreprocessor.effectiveOptions o).denoise =
        (ImagePreprocessor.selectedDefaults o).denoise)) ∧
    ((∀ v, o.contrast = some v →
        (ImagePreprocessor.effectiveOptions o).contrast = some v) ∧
      (o.contrast = none → (ImagePreprocessor.effectiveOptions o).contrast =
        (ImagePreprocessor.selectedDefaults o).contrast)) ∧
    ((∀ v, o.threshold = some v →
        (ImagePreprocessor.effectiveOptions o).threshold = some v) ∧
      (o.threshold = none → (ImagePreprocessor.effectiveOptions o).threshold =
        (ImagePreprocessor.selectedDefaults o).threshold)) ∧
    ((∀ v, o.adaptiveThreshold = some v →
        (ImagePreprocessor.effectiveOptions o).adaptiveThreshold = some v) ∧
      (o.adaptiveThreshold = none →
        (ImagePreprocessor.effectiveOptions o).adaptiveThreshold =
          (ImagePreprocessor.selectedDefaults o).adaptiveThreshold)) ∧
    ((∀ v, o.sharpen = some v →
        (ImagePreprocessor.effectiveOptions o).sharpen = some v) ∧
      (o.sharpen = none → (ImagePreprocessor.effectiveOptions o).sharpen =
        (ImagePreprocessor.selectedDefaults o).sharpen)) ∧
    ((∀ v, o.deskew = some v →
        (ImagePreprocessor.effectiveOptions o).deskew = some v) ∧
      (o.deskew = none → (ImagePreprocessor.effectiveOptions o).deskew =
        (ImagePreprocessor.selectedDefaults o).deskew)) ∧
    ((∀ v, o.morphology = some v →
        (ImagePreprocessor.effectiveOptions o).morphology = some v) ∧
      (o.morphology = none → (ImagePreprocessor.effectiveOptions o).morphology =
        (ImagePreprocessor.selectedDefaults o).morphology)) ∧
    ((∀ v, o.mode = some v →
        (ImagePreprocessor.effectiveOptions o).mode = some v) ∧
      (o.mode = none → (ImagePreprocessor.effectiveOptions o).mode =
        (ImagePreprocessor.selectedDefaults o).mode)) ∧
    ((∀ v, o.contrastFactor = some v →
        (ImagePreprocessor.effectiveOptions o).contrastFactor = some v) ∧
      (o.contrastFactor = none →
        (ImagePreprocessor.effectiveOptions o).contrastFactor =
          (ImagePreprocessor.selectedDefaults o).contrastFactor)) ∧
    ((∀ v, o.adaptiveBlockSize = some v →
        (ImagePreprocessor.effectiveOptions o).adaptiveBlockSize = some v) ∧
      (o.adaptiveBlockSize = none →
        (ImagePreprocessor.effectiveOptions o).adaptiveBlockSize =
          (ImagePreprocessor.selectedDefaults o).adaptiveBlockSize)) ∧
    ((∀ v, o.adaptiveC = some v →
        (ImagePreprocessor.effectiveOptions o).adaptiveC = some v) ∧
      (o.adaptiveC = none → (ImagePreprocessor.effectiveOptions o).adaptiveC =
        (ImagePreprocessor.selectedDefaults o).adaptiveC)) ∧
    ((∀ v, o.upscale = some v →
        (ImagePreprocessor.effectiveOptions o).upscale = some v) ∧
      (o.upscale = none → (ImagePreprocessor.effectiveOptions o).upscale =
        (ImagePreprocessor.selectedDefaults o).upscale)) ∧
    ((∀ v, o.bilateralFilter = some v →
        (ImagePreprocessor.effectiveOptions o).bilateralFilter = some v) ∧
      (o.bilateralFilter = none →
        (ImagePreprocessor.effectiveOptions o).bilateralFilter =
          (ImagePreprocessor.selectedDefaults o).bilateralFilter)) ∧
    ((∀ v, o.unsharpMask = some v →
        (ImagePreprocessor.effectiveOptions o).unsharpMask = some v) ∧
      (o.unsharpMask = none → (ImagePreprocessor.effectiveOptions o).unsharpMask =
        (ImagePreprocessor.selectedDefaults o).unsharpMask)) := by
  unfold ImagePreprocessor.effectiveOptions
  refine ⟨⟨?_, ?_⟩, ⟨?_, ?_⟩, ⟨?_, ?_⟩, ⟨?_, ?_⟩, ⟨?_, ?_⟩, ⟨?_, ?_⟩, ⟨?_, ?_⟩,
    ⟨?_, ?_⟩, ⟨?_, ?_⟩, ⟨?_, ?_⟩, ⟨?_, ?_⟩, ⟨?_, ?_⟩, ⟨?_, ?_⟩, ⟨?_, ?_⟩, ⟨?_, ?_⟩⟩ <;>
    first
      | (intro v h; simp [h])
      | (intro h; simp [h])

/-- Witness for C7: a caller that selects handwritten mode and overrides
`sharpen`; the override wins and an unsupplied field (`denoise`) falls back
to the handwritten preset. -/
theorem C7_options_merge_witness :
    (ImagePreprocessor.effectiveOptions
        { mode := some OCRMode.handwritten, sharpen := some true }).sharpen = some true ∧
    (ImagePreprocessor.effectiveOptions
        { mode := some OCRMode.handwritten, sharpen := some true }).denoise =
      (ImagePreprocessor.selectedDefaults
        { mode := some OCRMode.handwritten, sharpen := some true }).denoise :=
  ⟨(C7_options_merge { mode := some OCRMode.handwritten, sharpen := some true }).2.2.2.2.2.1.1
      true rfl,
   (C7_options_merge { mode := some OCRMode.handwritten, sharpen := some true }).2.1.2 rfl⟩

/-- One concrete stage invocation of the `preprocess` pipeline, with the
parameters the orchestrator passes. -/
inductive StageCall
  | upscale (factor : ℕ)
  | grayscale
  | deskew
  | bilateral (radius : ℕ) (sigmaColor sigmaSpace : ℚ)
  | median (radius : ℕ)
  | boxBlur (radius : ℕ)
  | contrast (factor : ℚ)
  | opening (k : ℕ)
  | closing (k : ℕ)
  | unsharp (amount : ℚ) (radius : ℕ)
  | sharpen
  | adaptive (blockSize : ℕ) (c : ℚ)
  | otsuThreshold
deriving DecidableEq

/-- The kind of a stage call, forgetting its numeric parameters. -/
inductive StageKind
  | upscaleK
  | grayscaleK
  | deskewK
  | bilateralK
  | medianK
  | boxK
  | contrastK
  | openingK
  | closingK
  | unsharpK
  | sharpenK
  | adaptiveK
  | otsuK
deriving DecidableEq

/-- Forget the parameters of a stage call. -/
def kind : StageCall → StageKind
  | .upscale _ => .upscaleK
  | .grayscale => .grayscaleK
  | .deskew => .deskewK
  | .bilateral _ _ _ => .bilateralK
  | .median _ => .medianK
  | .boxBlur _ => .boxK
  | .contrast _ => .contrastK
  | .opening _ => .openingK
  | .closing _ => .closingK
  | .unsharp _ _ => .unsharpK
  | .sharpen => .sharpenK
  | .adaptive _ _ => .adaptiveK
  | .otsuThreshold => .otsuK

/-- Logical pipeline phase of a stage kind: 0 upscale, 1 grayscale,
2 deskew, 3 noise reduction, 4 contrast, 5 morphology, 6 edge enhancement,
7 binarization. -/
def phase : StageKind → ℕ
  | .upscaleK => 0
  | .grayscaleK => 1
  | .deskewK => 2
  | .bilateralK => 3
  | .medianK => 3
  | .boxK => 3
  | .contrastK => 4
  | .openingK => 5
  | .closingK => 5
  | .unsharpK => 6
  | .sharpenK => 6
  | .adaptiveK => 7
  | .otsuK => 7

namespace ImagePreprocessor

/-- The sequence of stage calls `preprocess` performs on the (already
merged) options `o` — Steps 0 through 7 of the source, each conditional
exactly as written there (`opts.x` truthiness is `getD false`, and
`opts.mode === 'handwritten'` is the decidable equality test). -/
def stageTrace (o : PreprocessingOptions) : List StageCall :=
  let hw : Bool := decide (o.mode = some OCRMode.handwritten)
  (if o.upscale.getD false && hw then [StageCall.upscale 2] else []) ++
  (if o.grayscale.getD false then [StageCall.grayscale] else []) ++
  (if o.deskew.getD false then [StageCall.deskew] else []) ++
  (if o.bilateralFilter.getD false then
      [StageCall.bilateral (if hw then 3 else 2) 40 40]
    else if o.denoise.getD false then
      (if hw then [StageCall.median 2] else [StageCall.boxBlur 1])
    else []) ++
  (if o.contrast.getD false then [StageCall.contrast (o.contrastFactor.getD (13/10))] else []) ++
  (if o.morphology.getD false && hw then [StageCall.opening 2, StageCall.closing 3] else []) ++
  (if o.unsharpMask.getD false then [StageCall.unsharp (if hw then 2 else 3/2) 1]
    else if o.sharpen.getD false && !hw then [StageCall.sharpen] else []) ++
  (if o.adaptiveThreshold.getD false then
      [StageCall.adaptive (o.adaptiveBlockSize.getD 15) (o.adaptiveC.getD 5)]
    else if o.threshold.getD false then [StageCall.otsuThreshold] else [])

/-- The stage calls of a full `preprocess(file, options)` run: defaults for
the selected mode are merged with the caller's options first. -/
def preprocessTrace (options : PreprocessingOptions) : List StageCall :=
  stageTrace (effectiveOptions options)

end ImagePreprocessor

/-- The kinds of `stageTrace`, as a function of the twelve boolean
conditions it reads. -/
def kindsB (up hw gs dsk bil den ctr mor uns shp adp thr : Bool) : List StageKind :=
  (if up && hw then [StageKind.upscaleK] else []) ++
  (if gs then [StageKind.grayscaleK] else []) ++
  (if dsk then [StageKind.deskewK] else []) ++
  (if bil then [StageKind.bilateralK]
    else if den then (if hw then [StageKind.medianK] else [StageKind.boxK])
    else []) ++
  (if ctr then [StageKind.contrastK] else []) ++
  (if mor && hw then [StageKind.openingK, StageKind.closingK] else []) ++
  (if uns then [StageKind.unsharpK]
    else if shp && !hw then [StageKind.sharpenK]
    else []) ++
  (if adp then [StageKind.adaptiveK] else if thr then [StageKind.otsuK] else [])

theorem map_kind_single (c : Bool) (s : StageCall) :
    (if c then [s] else []).map kind = if c then [kind s] else [] := by
  cases c <;> rfl

theorem map_kind_noise (bil den hw : Bool) :
    (if bil then [StageCall.bilateral (if hw then 3 else 2) 40 40]
      else if den then (if hw then [StageCall.median 2] else [StageCall.boxBlur 1])
      else []).map kind =
    (if bil then [StageKind.bilateralK]
      else if den then (if hw then [StageKind.medianK] else [StageKind.boxK])
      else []) := by
  cases bil <;> cases den <;> cases hw <;> rfl

theorem map_kind_morph (c : Bool) :
    (if c then [StageCall.opening 2, StageCall.closing 3] else []).map kind =
      if c then [StageKind.openingK, StageKind.closingK] else [] := by
  cases c <;> rfl

theorem map_kind_edge (uns shp hw : Bool) (q : ℚ) :
    (if uns then [StageCall.unsharp q 1]
      else if shp && !hw then [StageCall.sharpen] else []).map kind =
    (if uns then [StageKind.unsharpK]
      else if shp && !hw then [StageKind.sharpenK] else []) := by
  cases uns <;> cases shp <;> cases hw <;> rfl

theorem map_kind_bin (adp thr : Bool) (bs : ℕ) (c : ℚ) :
    (if adp then [StageCall.adaptive bs c]
      else if thr then [StageCall.otsuThreshold] else []).map kind =
      (if adp then [StageKind.adaptiveK]
        else if thr then [StageKind.otsuK] else []) := by
  cases adp <;> cases thr <;> rfl

theorem stageTrace_map_kind (o : PreprocessingOptions) :
    (ImagePreprocessor.stageTrace o).map kind =
      kindsB (o.upscale.getD false) (decide (o.mode = some OCRMode.handwritten))
        (o.grayscale.getD false) (o.deskew.getD false) (o.bilateralFilter.getD false)
        (o.denoise.getD false) (o.contrast.getD false) (o.morphology.getD false)
        (o.unsharpMask.getD false) (o.sharpen.getD false)
        (o.adaptiveThreshold.getD false) (o.threshold.getD false) := by
  unfold ImagePreprocessor.stageTrace kindsB
  dsimp only
  simp only [List.map_append, map_kind_single, map_kind_noise, map_kind_morph,
    map_kind_edge, map_kind_bin, kind]

set_option maxHeartbeats 1000000 in
theorem kindsB_props : ∀ up hw gs dsk bil den ctr mor uns shp adp thr : Bool,
    List.Pairwise (fun a b => phase a ≤ phase b)
      (kindsB up hw gs dsk bil den ctr mor uns shp adp thr) ∧
    (bil = true →
      StageKind.bilateralK ∈ kindsB up hw gs dsk bil den ctr mor uns shp adp thr ∧
      StageKind.medianK ∉ kindsB up hw gs dsk bil den ctr mor uns shp adp thr ∧
      StageKind.boxK ∉ kindsB up hw gs dsk bil den ctr mor uns shp adp thr) ∧
    ¬(StageKind.bilateralK ∈ kindsB up hw gs dsk bil den ctr mor uns shp adp thr ∧
      (StageKind.medianK ∈ kindsB up hw gs dsk bil den ctr mor uns shp adp thr ∨
        StageKind.boxK ∈ kindsB up hw gs dsk bil den ctr mor uns shp adp thr)) ∧
    (∀ s ∈ (kindsB up hw gs dsk bil den ctr mor uns shp adp thr).dropLast, phase s ≠ 7) ∧
    ((adp || thr) = true →
      ((kindsB up hw gs dsk bil den ctr mor uns shp adp thr).map phase).getLast? = some 7) := by
  decide

/-- Claim C1: for every caller-supplied `PreprocessingOptions`, the pipeline
trace of `preprocess` (after the mode preset is merged in) runs its stages
in the fixed phase order upscale → grayscale → deskew → noise reduction →
contrast → morphology → edge enhancement → binarization; when
`bilateralFilter` is enabled only the bilateral filter runs in the noise
phase (median/box blur are excluded, so bilateral and plain denoise are
mutually exclusive with bilateral taking priority); and binarization, when
enabled, is the last stage applied. -/
theorem C1_pipeline_fixed_order (options : PreprocessingOptions) :
    List.Pairwise (fun a b => phase a ≤ phase b)
      ((ImagePreprocessor.preprocessTrace options).map kind) ∧
    ((ImagePreprocessor.effectiveOptions options).bilateralFilter.getD false = true →
      StageKind.bilateralK ∈ (ImagePreprocessor.preprocessTrace options).map kind ∧
      StageKind.medianK ∉ (ImagePreprocessor.preprocessTrace options).map kind ∧
      StageKind.boxK ∉ (ImagePreprocessor.preprocessTrace options).map kind) ∧
    ¬(StageKind.bilateralK ∈ (ImagePreprocessor.preprocessTrace options).map kind ∧
      (StageKind.medianK ∈ (ImagePreprocessor.preprocessTrace options).map kind ∨
        StageKind.boxK ∈ (ImagePreprocessor.preprocessTrace options).map kind)) ∧
    (∀ s ∈ ((ImagePreprocessor.preprocessTrace options).map kind).dropLast, phase s ≠ 7) ∧
    (((ImagePreprocessor.effectiveOptions options).adaptiveThreshold.getD false ||
        (ImagePreprocessor.effectiveOptions options).threshold.getD false) = true →
      (((ImagePreprocessor.preprocessTrace options).map kind).map phase).getLast? = some 7) := by
  unfold ImagePreprocessor.preprocessTrace
  rw [stageTrace_map_kind]
  exact kindsB_props _ _ _ _ _ _ _ _ _ _ _ _

/-- Witness for C1: with `bilateralFilter`, `denoise` and
`adaptiveThreshold` all enabled, the bilateral filter is in the trace, the
median filter is not, and the last phase is binarization. -/
theorem C1_pipeline_fixed_order_witness :
    StageKind.bilateralK ∈ (ImagePreprocessor.preprocessTrace
      { bilateralFilter := some true, denoise := some true,
        adaptiveThreshold := some true }).map kind ∧
    StageKind.medianK ∉ (ImagePreprocessor.preprocessTrace
      { bilateralFilter := some true, denoise := some true,
        adaptiveThreshold := some true }).map kind ∧
    (((ImagePreprocessor.preprocessTrace
      { bilateralFilter := some true, denoise := some true,
        adaptiveThreshold := some true }).map kind).map phase).getLast? = some 7 := by
  have h := C1_pipeline_fixed_order
    { bilateralFilter := some true, denoise := some true, adaptiveThreshold := some true }
  exact ⟨(h.2.1 rfl).1, (h.2.1 rfl).2.1, h.2.2.2.2 rfl⟩

/-- Status of a batch queue item (`QueueItemStatus`). -/
inductive QueueItemStatus
  | pending
  | processing
  | completed
  | failed
deriving DecidableEq

/-- A successful OCR run (`OCRResult`, the fields the queue stores back). -/
structure OCRSuccess where
  text : String
  confidence : ℚ
deriving DecidableEq

/-- One entry of the batch queue (`QueueItem`), restricted to the fields
`processItem` reads or writes. -/
structure QueueItem where
  id : String
  language : String
  status : QueueItemStatus
  progress : ℚ
  error : Option String := none
  confidence : Option ℚ := none
  progressMessage : Option String := none
deriving DecidableEq

/-- The message wrapper of `performOCR`'s catch block:
`throw new Error("OCR failed: " + message)`. -/
def ocrErrorMessage (m : String) : String := "OCR failed: " ++ m

/-- `performOCR`: a stage failure with message `m` propagates as an error
whose message is `ocrErrorMessage m`; a success is passed through. -/
def performOCRResult (stageResult : Except String OCRSuccess) : Except String OCRSuccess :=
  match stageResult with
  | Except.ok r => Except.ok r
  | Except.error m => Except.error (ocrErrorMessage m)

/-- Net effect of `processItem` on its own item once the run finishes: the
success path stores status `completed`, progress 100 and the confidence; the
catch block stores status `failed`, progress 0 and the error message. -/
def finalizeItem (outcome : Except String OCRSuccess) (it : QueueItem) : QueueItem :=
  match outcome with
  | Except.ok r =>
    { it with
      status := QueueItemStatus.completed
      progress := 100
      confidence := some r.confidence
      progressMessage := none }
  | Except.error m =>
    { it with
      status := QueueItemStatus.failed
      progress := 0
      error := some m
      progressMessage := none }

/-- `updateItem(id, updates)`: map over the queue, touching only the items
whose id matches. -/
def applyOutcome (outcome : Except String OCRSuccess) (id : String)
    (items : List QueueItem) : List QueueItem :=
  items.map fun it => if it.id = id then finalizeItem outcome it else it

/-- `startProcessing`: filter the pending items and process each in turn,
each `processItem` call ending in `updateItem` on its own id; `stageOutcome`
gives the verdict of the (external) document/OCR work for a given item id. -/
def runBatch (stageOutcome : String → Except String OCRSuccess)
    (items : List QueueItem) : List QueueItem :=
  (items.filter fun it => decide (it.status = QueueItemStatus.pending)).foldl
    (fun acc it => applyOutcome (performOCRResult (stageOutcome it.id)) it.id acc) items

theorem finalizeItem_id (outcome : Except String OCRSuccess) (it : QueueItem) :
    (finalizeItem outcome it).id = it.id := by
  cases outcome <;> rfl

theorem foldl_applyOutcome (f : String → Except String OCRSuccess) :
    ∀ (l acc : List QueueItem), (l.map QueueItem.id).Nodup →
      (l.foldl (fun a it => applyOutcome (performOCRResult (f it.id)) it.id a) acc) =
        acc.map fun a =>
          if a.id ∈ l.map QueueItem.id then finalizeItem (performOCRResult (f a.id)) a
          else a := by
  intro l
  induction l with
  | nil =>
    intro acc _
    simp
  | cons it l ih =>
    intro acc hnd
    rw [List.map_cons, List.nodup_cons] at hnd
    obtain ⟨hhead, htail⟩ := hnd
    rw [List.foldl_cons, ih _ htail]
    unfold applyOutcome
    rw [List.map_map]
    refine List.map_congr_left ?_
    intro a _
    by_cases hid : a.id = it.id
    · have hnotin : a.id ∉ l.map QueueItem.id := by rw [hid]; exact hhead
      simp only [Function.comp_apply, if_pos hid]
      rw [if_neg (by rw [finalizeItem_id]; exact hnotin), if_pos (by simp [hid]), hid]
    · simp only [Function.comp_apply, if_neg hid]
      by_cases hmem : a.id ∈ l.map QueueItem.id
      · rw [if_pos hmem, if_pos (by simp [hmem])]
      · rw [if_neg hmem, if_neg (by simp [hid, hmem])]

theorem runBatch_closed_form (stageOutcome : String → Except String OCRSuccess)
    (items : List QueueItem) (hnd : (items.map QueueItem.id).Nodup) :
    runBatch stageOutcome items = items.map fun it =>
      if it.status = QueueItemStatus.pending
      then finalizeItem (performOCRResult (stageOutcome it.id)) it
      else it := by
  unfold runBatch
  have hsub : ((items.filter fun it =>
      decide (it.status = QueueItemStatus.pending)).map QueueItem.id).Nodup :=
    List.Nodup.sublist ((List.filter_sublist items).map QueueItem.id) hnd
  rw [foldl_applyOutcome stageOutcome _ items hsub]
  refine List.map_congr_left ?_
  intro a ha
  have hiff : (a.id ∈ (items.filter fun it =>
      decide (it.status = QueueItemStatus.pending)).map QueueItem.id) ↔
      a.status = QueueItemStatus.pending := by
    constructor
    · intro hmem
      rcases List.mem_map.mp hmem with ⟨b, hb, hba⟩
      rcases List.mem_filter.mp hb with ⟨hbmem, hbpend⟩
      have hab : b = a := List.inj_on_of_nodup_map hnd hbmem ha hba
      rw [← hab]
      exact of_decide_eq_true hbpend
    · intro hpend
      exact List.mem_map.mpr ⟨a, List.mem_filter.mpr ⟨ha, decide_eq_true hpend⟩, rfl⟩
  by_cases hpend : a.status = QueueItemStatus.pending
  · rw [if_pos (hiff.mpr hpend), if_pos hpend]
  · rw [if_neg (fun hmem => hpend (hiff.mp hmem)), if_neg hpend]

/-- Claim C8: an error while processing a queue item is fatal to that item
only — under distinct item ids, a batch run finalizes each pending item
purely from its own outcome (so one item's failure leaves every other item's
result untouched); a stage failure with message `m` leaves the item with
status `failed` and the stored error `"OCR failed: " ++ m`, from which the
failing stage's message is recoverable (the wrapper is injective). -/
theorem C8_batch_error_isolation :
    (∀ (stageOutcome : String → Except String OCRSuccess) (items : List QueueItem),
      (items.map QueueItem.id).Nodup →
      runBatch stageOutcome items = items.map fun it =>
        if it.status = QueueItemStatus.pending
        then finalizeItem (performOCRResult (stageOutcome it.id)) it
        else it) ∧
    (∀ (it : QueueItem) (m : String),
      finalizeItem (performOCRResult (Except.error m)) it =
        { it with
          status := QueueItemStatus.failed
          progress := 0
          error := some (ocrErrorMessage m)
          progressMessage := none }) ∧
    (∀ m₁ m₂ : String, ocrErrorMessage m₁ = ocrErrorMessage m₂ → m₁ = m₂) := by
  refine ⟨runBatch_closed_form, fun it m => rfl, fun m₁ m₂ h => ?_⟩
  unfold ocrErrorMessage at h
  have hd : ("OCR failed: " ++ m₁).data = ("OCR failed: " ++ m₂).data := by rw [h]
  simp only [String.data_append] at hd
  exact String.ext (List.append_cancel_left hd)

/-- Witness for C8: a two-item batch in which the first item's stage fails
and the second succeeds; the failure is recorded on item "a" with the
wrapped message, and item "b" still completes. -/
theorem C8_batch_error_isolation_witness :
    runBatch
      (fun id => if id = "a" then Except.error "bad decode" else Except.ok ⟨"hi", 90⟩)
      [⟨"a", "eng", QueueItemStatus.pending, 0, none, none, none⟩,
       ⟨"b", "eng", QueueItemStatus.pending, 0, none, none, none⟩] =
      [⟨"a", "eng", QueueItemStatus.failed, 0, some "OCR failed: bad decode", none, none⟩,
       ⟨"b", "eng", QueueItemStatus.completed, 100, none, some 90, none⟩] := by
  rw [C8_batch_error_isolation.1
    (fun id => if id = "a" then Except.error "bad decode" else Except.ok ⟨"hi", 90⟩)
    [⟨"a", "eng", QueueItemStatus.pending, 0, none, none, none⟩,
     ⟨"b", "eng", QueueItemStatus.pending, 0, none, none, none⟩]
    (by decide)]
  decide

namespace TextEditor

/-- `HistoryState` of `useTextEditor`: undo stack `past`, current text
`present`, redo stack `future`. -/
structure HistoryState where
  past : List String
  present : String
  future : List String
deriving DecidableEq

/-- `commitChange(newText)`: no-op when the text is unchanged; otherwise
push the present onto `past` (dropping the oldest entry — `shift()` — when
the limit is exceeded), move to `newText` and clear `future`. -/
def commitChange (maxHistory : ℕ) (newText : String) (s : HistoryState) : HistoryState :=
  if newText = s.present then s
  else
    let newPast := s.past ++ [s.present]
    let trimmed := if maxHistory < newPast.length then newPast.tail else newPast
    ⟨trimmed, newText, []⟩

/-- The `setText` updater when no debounce timer is pending: push the
present onto `past` immediately (with the same trimming), set the new
present, clear `future`. -/
def setTextIdle (maxHistory : ℕ) (newText : String) (s : HistoryState) : HistoryState :=
  let newPast := s.past ++ [s.present]
  let trimmed := if maxHistory < newPast.length then newPast.tail else newPast
  ⟨trimmed, newText, []⟩

/-- The `setText` updater while a debounce timer is pending: only the
present changes. -/
def setTextPending (newText : String) (s : HistoryState) : HistoryState :=
  { s with present := newText }

/-- `undo`: no-op on an empty past; otherwise pop the last past entry into
the present and push the old present onto the future. -/
def undo (s : HistoryState) : HistoryState :=
  match s.past.getLast? with
  | none => s
  | some previous => ⟨s.past.dropLast, previous, s.present :: s.future⟩

/-- `redo`: no-op on an empty future; otherwise shift the first future
entry into the present and append the old present to the past. -/
def redo (s : HistoryState) : HistoryState :=
  match s.future with
  | [] => s
  | next :: rest => ⟨s.past ++ [s.present], next, rest⟩

/-- `reset(newText)`: fresh history. -/
def reset (newText : String) : HistoryState :=
  ⟨[], newText, []⟩

/-- The states `useTextEditor`'s history can reach from its initial state
through the hook's operations. -/
inductive Reachable (maxHistory : ℕ) (initialText : String) : HistoryState → Prop
  | init : Reachable maxHistory initialText ⟨[], initialText, []⟩
  | commitChange (t : String) {s : HistoryState} :
      Reachable maxHistory initialText s →
      Reachable maxHistory initialText (commitChange maxHistory t s)
  | setTextIdle (t : String) {s : HistoryState} :
      Reachable maxHistory initialText s →
      Reachable maxHistory initialText (setTextIdle maxHistory t s)
  | setTextPending (t : String) {s : HistoryState} :
      Reachable maxHistory initialText s →
      Reachable maxHistory initialText (setTextPending t s)
  | undo {s : HistoryState} :
      Reachable maxHistory initialText s →
      Reachable maxHistory initialText (undo s)
  | redo {s : HistoryState} :
      Reachable maxHistory initialText s →
      Reachable maxHistory initialText (redo s)
  | reset (t : String) {s : HistoryState} :
      Reachable maxHistory initialText s →
      Reachable maxHistory initialText (reset t)

theorem reachable_sum_le (maxHistory : ℕ) (initialText : String) (s : HistoryState)
    (h : Reachable maxHistory initialText s) :
    s.past.length + s.future.length ≤ maxHistory := by
  induction h with
  | init => simp
  | commitChange t h ih =>
    unfold commitChange
    dsimp only
    split
    · exact ih
    · split <;> rename_i hlen <;> simp_all <;> omega
  | setTextIdle t h ih =>
    unfold setTextIdle
    dsimp only
    split <;> rename_i hlen <;> simp_all <;> omega
  | setTextPending t h ih => exact ih
  | @undo s' h ih =>
    rcases hlast : s'.past.getLast? with _ | previous
    · unfold undo
      rw [hlast]
      exact ih
    · have hne : s'.past ≠ [] := by
        intro hnil
        rw [hnil] at hlast
        simp at hlast
      unfold undo
      rw [hlast]
      dsimp only
      rw [List.length_dropLast, List.length_cons]
      have hpos : 0 < s'.past.length := List.length_pos.mpr hne
      omega
  | @redo s' h ih =>
    rcases hfut : s'.future with _ | ⟨next, rest⟩
    · unfold redo
      rw [hfut]
      exact ih
    · unfold redo
      rw [hfut]
      dsimp only
      rw [List.length_append]
      rw [hfut] at ih
      simp at ih ⊢
      omega
  | reset t h ih => simp [reset]

end TextEditor

/-- Claim C9: in the `useTextEditor` history, `undo` with an empty past and
`redo` with an empty future leave the state unchanged, and whenever the past
is non-empty, `undo` followed by `redo` restores exactly the pre-undo state. -/
theorem C9_undo_redo_inverse :
    (∀ s : TextEditor.HistoryState, s.past = [] → TextEditor.undo s = s) ∧
    (∀ s : TextEditor.HistoryState, s.future = [] → TextEditor.redo s = s) ∧
    (∀ s : TextEditor.HistoryState, s.past ≠ [] →
      TextEditor.redo (TextEditor.undo s) = s) := by
  refine ⟨fun s h => ?_, fun s h => ?_, fun s h => ?_⟩
  · unfold TextEditor.undo
    rw [h]
    rfl
  · unfold TextEditor.redo
    rw [h]
  · unfold TextEditor.undo
    rw [List.getLast?_eq_getLast s.past h]
    unfold TextEditor.redo
    dsimp only
    rw [List.dropLast_append_getLast h]

/-- Witness for C9 at concrete states: empty-past undo, empty-future redo,
and the undo-then-redo round trip on a state with non-empty past. -/
theorem C9_undo_redo_inverse_witness :
    TextEditor.undo ⟨[], "a", ["b"]⟩ = ⟨[], "a", ["b"]⟩ ∧
    TextEditor.redo ⟨["a"], "b", []⟩ = ⟨["a"], "b", []⟩ ∧
    TextEditor.redo (TextEditor.undo ⟨["a", "b"], "c", ["d"]⟩) = ⟨["a", "b"], "c", ["d"]⟩ :=
  ⟨C9_undo_redo_inverse.1 ⟨[], "a", ["b"]⟩ rfl,
   C9_undo_redo_inverse.2.1 ⟨["a"], "b", []⟩ rfl,
   C9_undo_redo_inverse.2.2 ⟨["a", "b"], "c", ["d"]⟩ (by simp)⟩

/-- Claim C10: the undo stack never exceeds `maxHistory` entries — every
state reachable through `setText` (idle or debounce-pending), the debounced
`commitChange`, `undo`, `redo` and `reset` has `past.length ≤ maxHistory`
(the trimming in `commitChange`/`setTextIdle` discards the oldest entry, and
`undo`/`redo` conserve `past.length + future.length`). -/
theorem C10_history_bounded (maxHistory : ℕ) (initialText : String)
    (s : TextEditor.HistoryState)
    (h : TextEditor.Reachable maxHistory initialText s) :
    s.past.length ≤ maxHistory :=
  le_trans (Nat.le_add_right _ _)
    (TextEditor.reachable_sum_le maxHistory initialText s h)

/-- Witness for C10: a concrete reachable state (two edits, then an undo)
with the default limit 100. -/
theorem C10_history_bounded_witness :
    (TextEditor.undo
      (TextEditor.setTextIdle 100 "c"
        (TextEditor.setTextIdle 100 "b" ⟨[], "a", []⟩))).past.length ≤ 100 :=
  C10_history_bounded 100 "a" _
    ((TextEditor.Reachable.init.setTextIdle "b").setTextIdle "c").undo
